import Mathlib

/-!
Shallow embedding of the numeric core of the ddddocr repository
(src/ddddocr/core/detection_engine.py and src/ddddocr/core/slide_engine.py,
together with src/ddddocr/utils/validators.py, exceptions.py and image_io.py),
with theorems settling the testable properties stated for it.

Modelling conventions:
* NumPy/Python floats are modelled as rationals; machine-float rounding is not
  modelled (all arithmetic in the claims is exact on the inputs used here).
* NumPy arrays are modelled as lists (tensors) or as dimension-plus-function
  grids (images).
* External OpenCV routines (findContours, contourArea, matchTemplate, Canny)
  are collaborators of the repository code and appear as explicit function
  parameters, constrained only by their documented behaviour.
* Python `int(x)` truncates toward zero; it is modelled by `pyInt`.
-/

namespace DDDDOCR

/-! ## Boxes and IoU: `DetectionEngine.nms` (detection_engine.py lines 128-150) -/

/-- A candidate box in corner form, as the rows of `boxes[:, 0..3]`. -/
structure Box where
  x1 : ℚ
  y1 : ℚ
  x2 : ℚ
  y2 : ℚ
  deriving DecidableEq, Repr

/-- `areas = (x2 - x1 + 1) * (y2 - y1 + 1)` (line 134, inclusive pixel areas). -/
def Box.area (b : Box) : ℚ := (b.x2 - b.x1 + 1) * (b.y2 - b.y1 + 1)

/-- Intersection area of the selected box `a` with a pooled box `b`:
`w = max(0, xx2 - xx1 + 1)`, `h = max(0, yy2 - yy1 + 1)`, `inter = w * h`
(lines 140-146). -/
def interArea (a b : Box) : ℚ :=
  (max 0 (min a.x2 b.x2 - max a.x1 b.x1 + 1)) *
  (max 0 (min a.y2 b.y2 - max a.y1 b.y1 + 1))

/-- `ovr = inter / (areas[i] + areas[order[1:]] - inter)` (line 147). -/
def ovr (a b : Box) : ℚ := interArea a b / (a.area + b.area - interArea a b)

/-- A box together with its score: one entry of the (boxes, scores) pair that
`nms` receives. -/
abbrev Scored := Box × ℚ

/-- Score ordering used by `scores.argsort()`. -/
def scoreLE (a b : Scored) : Prop := a.2 ≤ b.2

instance : DecidableRel scoreLE := fun a b => inferInstanceAs (Decidable (a.2 ≤ b.2))

instance : IsTotal Scored scoreLE := ⟨fun a b => le_total a.2 b.2⟩

instance : IsTrans Scored scoreLE := ⟨fun _ _ _ h h2 => le_trans h h2⟩

/-- `scores.argsort()[::-1]`: a stable ascending sort by score, reversed, so
that the candidate list is processed in descending score order (line 135).
Ties come out in reversed input order, exactly as a stable `argsort` followed
by `[::-1]` produces them. -/
def sortScoreDesc (l : List Scored) : List Scored :=
  (List.insertionSort scoreLE l).reverse

/-- Greedy suppression loop of `nms` (lines 137-149), fuelled so that it is
structurally recursive: each round keeps the highest-scoring remaining entry
and retains only the pooled entries whose overlap with it is `≤ nms_thr`
(`inds = np.where(ovr <= nms_thr)[0]`, line 148). The fuel is always at least
the list length at every call site. -/
def nmsLoopFuel (thr : ℚ) : ℕ → List Scored → List Scored
  | 0, _ => []
  | _ + 1, [] => []
  | n + 1, b :: rest =>
      b :: nmsLoopFuel thr n (rest.filter fun c => decide (ovr b.1 c.1 ≤ thr))

/-- The suppression loop at its natural fuel. -/
def nmsLoop (thr : ℚ) (l : List Scored) : List Scored := nmsLoopFuel thr l.length l

/-- `DetectionEngine.nms` (lines 128-150): sort by descending score, then run
the greedy suppression loop.  The returned value is the kept (box, score) list
in selection order, the observable content of the `keep` index list. -/
def nms (rows : List Scored) (thr : ℚ) : List Scored := nmsLoop thr (sortScoreDesc rows)

/-! ## Score reduction: `multiclass_nms_class_agnostic` (lines 152-167) and the
score matrix built by `get_bbox` (lines 180-181). -/

/-- Maximum of a score row, the value `scores[i, cls_inds[i]]` picks out. -/
def maxVal : List ℚ → ℚ
  | [] => 0
  | [x] => x
  | x :: y :: xs => max x (maxVal (y :: xs))

/-- `scores.argmax(1)` for one row: NumPy `argmax` returns the first index
attaining the maximum. -/
def argmaxFirst : List ℚ → ℕ
  | [] => 0
  | [_] => 0
  | x :: y :: xs => if x < maxVal (y :: xs) then argmaxFirst (y :: xs) + 1 else 0

/-- `cls_scores = scores[np.arange(len(cls_inds)), cls_inds]` for one row
(line 155): the entry at the argmax index. -/
def rowScore (s : List ℚ) : ℚ := s.getD (argmaxFirst s) 0

/-- `scores = predictions[:, 4:5] * predictions[:, 5:]` for one prediction row
(line 181): objectness (column 4) times each class probability (columns 5..). -/
def scoreRow (pred : List ℚ) : List ℚ := (pred.drop 5).map (pred.getD 4 0 * ·)

/-- The score filter plus greedy NMS of `multiclass_nms_class_agnostic`
(lines 152-162), at the granularity the spec calls the Suppressor: rows carry
one box and one already-reduced score. `valid_score_mask = cls_scores >
score_thr` keeps exactly the rows with score strictly above the threshold. -/
def suppressor (nms_thr score_thr : ℚ) (rows : List Scored) : List Scored :=
  nmsLoop nms_thr (sortScoreDesc (rows.filter fun r => decide (score_thr < r.2)))

/-- `multiclass_nms_class_agnostic(boxes, scores, nms_thr, score_thr)`
(lines 152-167) over parallel rows of boxes and per-class score rows.
Returns `none` when no row passes the score threshold (`return None`,
line 158).  The value models the first five columns of `dets`
(`valid_boxes[keep]` and `valid_scores[keep, None]`); the class-index column
`valid_cls_inds[keep, None]` is never read downstream (`get_bbox` uses only
`pred[:, :4]`) and is not carried.  The unreachable `if keep:` guard (the
loop always keeps at least one valid row) is dropped. -/
def multiclass_nms_class_agnostic (rows : List (Box × List ℚ))
    (nms_thr score_thr : ℚ) : Option (List Scored) :=
  let valid := rows.filter fun r => decide (score_thr < rowScore r.2)
  if valid.isEmpty then none
  else
    some (nmsLoop nms_thr
      (sortScoreDesc (valid.map fun r => (r.1, rowScore r.2))))

/-! ## Box clamping and the tail of `get_bbox` (lines 173-212). -/

/-- Python `int(x)` on a float: truncation toward zero. -/
def pyInt (q : ℚ) : ℤ := if q < 0 then ⌈q⌉ else ⌊q⌋

/-- An emitted bounding box `[x_min, y_min, x_max, y_max]`. -/
structure IntBox where
  x_min : ℤ
  y_min : ℤ
  x_max : ℤ
  y_max : ℤ
  deriving DecidableEq, Repr

/-- The clamping loop body of `get_bbox` (lines 192-209) applied to one
surviving box `b`, with `W = img.shape[1]` and `H = img.shape[0]`:
negative `x_min`/`y_min` are clamped to `0`, and `x_max`/`y_max` beyond the
image extent are clamped to it; all other coordinates are truncated with
`int(...)`. -/
def clampBox (b : Box) (W H : ℕ) : IntBox :=
  { x_min := if b.x1 < 0 then 0 else pyInt b.x1
    y_min := if b.y1 < 0 then 0 else pyInt b.y1
    x_max := if (W : ℚ) < b.x2 then (W : ℤ) else pyInt b.x2
    y_max := if (H : ℚ) < b.y2 then (H : ℤ) else pyInt b.y2 }

/-- The property the spec asserts of every emitted box. -/
def boxInBounds (r : IntBox) (W H : ℕ) : Prop :=
  0 ≤ r.x_min ∧ r.x_min ≤ r.x_max ∧ r.x_max ≤ (W : ℤ) ∧
  0 ≤ r.y_min ∧ r.y_min ≤ r.y_max ∧ r.y_max ≤ (H : ℤ)

instance (r : IntBox) (W H : ℕ) : Decidable (boxInBounds r W H) :=
  inferInstanceAs (Decidable (_ ∧ _))

/-- The suppression-and-clamping tail of `get_bbox` (lines 188-212), from the
decoded candidate rows: run `multiclass_nms` with the fixed thresholds
`nms_thr=0.45`, `score_thr=0.1`, then clamp each surviving box.  When the
suppressor returns `None`, the subscript `pred[:, :4]` raises and the
`except` handler returns the empty list (lines 210-211). -/
def get_bbox_tail (rows : List (Box × List ℚ)) (W H : ℕ) : List IntBox :=
  match multiclass_nms_class_agnostic rows (45/100) (1/10) with
  | none => []
  | some dets => dets.map fun d => clampBox d.1 W H

/-! ## `demo_postprocess` (lines 106-126). -/

/-- The stride-wise grid of `demo_postprocess` (lines 108-123): for each
stride `s`, `np.meshgrid(np.arange(wsize), np.arange(hsize))` stacked and
reshaped row-major gives the cell coordinates `(x, y)` paired with `s`, and
the per-stride grids are concatenated in stride order. -/
def buildGrid (imgH imgW : ℕ) (p6 : Bool) : List (ℕ × ℕ × ℕ) :=
  (if p6 then [8, 16, 32, 64] else [8, 16, 32]).flatMap fun s =>
    (List.range (imgH / s)).flatMap fun y =>
      (List.range (imgW / s)).map fun x => (x, y, s)

/-- The in-place update of one tensor row (lines 124-125):
`outputs[..., :2] = (outputs[..., :2] + grids) * expanded_strides` and
`outputs[..., 2:4] = np.exp(outputs[..., 2:4]) * expanded_strides`.  The
transcendental `np.exp` is an external numeric routine and is passed in as
`expf`. -/
def decodeRow (expf : ℚ → ℚ) (g : ℕ × ℕ × ℕ) (row : List ℚ) : List ℚ :=
  (row.getD 0 0 + g.1) * g.2.2 :: (row.getD 1 0 + g.2.1) * g.2.2 ::
  expf (row.getD 2 0) * g.2.2 :: expf (row.getD 3 0) * g.2.2 :: row.drop 4

/-- `demo_postprocess(outputs, img_size, p6)` (lines 106-126).  The Python
code assigns into `outputs` in place and returns the same array; the returned
list is therefore the state of the caller's tensor after the call. -/
def demo_postprocess (expf : ℚ → ℚ) (imgH imgW : ℕ) (p6 : Bool)
    (outputs : List (List ℚ)) : List (List ℚ) :=
  List.zipWith (decodeRow expf) (buildGrid imgH imgW p6) outputs

/-! ## Images and the slide engine (slide_engine.py). -/

/-- A single-channel uint8 raster, as produced by grayscale conversion and
thresholding: a height, a width, and a pixel function (values outside the
bounds are never read except through `getD` below). -/
structure Grid where
  height : ℕ
  width : ℕ
  pix : ℤ → ℤ → ℕ

/-- Pixel access with an explicit out-of-bounds default, as the constant
border OpenCV morphology uses. -/
def Grid.getD (g : Grid) (d : ℕ) (i j : ℤ) : ℕ :=
  if 0 ≤ i ∧ i < (g.height : ℤ) ∧ 0 ≤ j ∧ j < (g.width : ℤ) then g.pix i j else d

/-- A three-channel RGB uint8 raster, as `image_to_numpy(pil, RGB)` yields. -/
structure Img where
  height : ℕ
  width : ℕ
  pix : ℤ → ℤ → ℕ × ℕ × ℕ

/-- `cv2.absdiff(target, background)` (line 162): per-pixel, per-channel
absolute difference.  Defined for equal-shape inputs (the engine raises on a
shape mismatch before this value is ever used). -/
def absdiffImg (a b : Img) : Img :=
  { height := a.height, width := a.width
    pix := fun i j =>
      ((max (a.pix i j).1 (b.pix i j).1 - min (a.pix i j).1 (b.pix i j).1),
       (max (a.pix i j).2.1 (b.pix i j).2.1 - min (a.pix i j).2.1 (b.pix i j).2.1),
       (max (a.pix i j).2.2 (b.pix i j).2.2 - min (a.pix i j).2.2 (b.pix i j).2.2)) }

/-- `cv2.cvtColor(diff, cv2.COLOR_RGB2GRAY)` (line 165): OpenCV's fixed-point
BT.601 luma, `(R*4899 + G*9617 + B*1868 + 8192) >> 14`. -/
def rgb2gray (a : Img) : Grid :=
  { height := a.height, width := a.width
    pix := fun i j =>
      (4899 * (a.pix i j).1 + 9617 * (a.pix i j).2.1 + 1868 * (a.pix i j).2.2 + 8192) /
        16384 }

/-- `cv2.threshold(diff_gray, 30, 255, cv2.THRESH_BINARY)` (line 168):
pixels strictly above the cutoff become `maxval`, all others `0`. -/
def thresholdBin (cutoff maxval : ℕ) (g : Grid) : Grid :=
  { height := g.height, width := g.width
    pix := fun i j => if cutoff < g.pix i j then maxval else 0 }

/-- The 3x3 structuring element `np.ones((3, 3))` (line 171) as the list of
kernel offsets. -/
def offsets3 : List (ℤ × ℤ) :=
  [(-1, -1), (-1, 0), (-1, 1), (0, -1), (0, 0), (0, 1), (1, -1), (1, 0), (1, 1)]

/-- Erosion by the 3x3 kernel: minimum over the neighbourhood, with the
out-of-bounds constant border at the maximal value so that the border never
erodes (OpenCV default).  The fold starts at the centre pixel, which the
kernel always contains. -/
def erode3 (g : Grid) : Grid :=
  { height := g.height, width := g.width
    pix := fun i j =>
      (offsets3.map fun o => g.getD 255 (i + o.1) (j + o.2)).foldl min
        (g.getD 255 i j) }

/-- Dilation by the 3x3 kernel: maximum over the neighbourhood, with the
out-of-bounds constant border at 0 (OpenCV default). -/
def dilate3 (g : Grid) : Grid :=
  { height := g.height, width := g.width
    pix := fun i j =>
      (offsets3.map fun o => g.getD 0 (i + o.1) (j + o.2)).foldl max 0 }

/-- `cv2.morphologyEx(binary, cv2.MORPH_CLOSE, kernel)` (line 172). -/
def morphClose (g : Grid) : Grid := erode3 (dilate3 g)

/-- `cv2.morphologyEx(binary, cv2.MORPH_OPEN, kernel)` (line 173). -/
def morphOpen (g : Grid) : Grid := dilate3 (erode3 g)

/-- The binary mask handed to `cv2.findContours` (lines 162-173). -/
def diffBinary (target background : Img) : Grid :=
  morphOpen (morphClose (thresholdBin 30 255 (rgb2gray (absdiffImg target background))))

/-- A contour: a list of (x, y) points, OpenCV's point convention. -/
abbrev Contour := List (ℤ × ℤ)

/-- `cv2.boundingRect(contour)`: the tightest axis-aligned rectangle
`(x, y, w, h)` around the points, with inclusive width and height. -/
def boundingRect : Contour → ℤ × ℤ × ℤ × ℤ
  | [] => (0, 0, 0, 0)
  | p :: ps =>
      let xmin := (ps.map Prod.fst).foldl min p.1
      let xmax := (ps.map Prod.fst).foldl max p.1
      let ymin := (ps.map Prod.snd).foldl min p.2
      let ymax := (ps.map Prod.snd).foldl max p.2
      (xmin, ymin, xmax - xmin + 1, ymax - ymin + 1)

/-- Python `max(contours, key=area)`: the first element attaining the
maximal key. -/
def pyMaxBy (area : Contour → ℚ) (c : Contour) (cs : List Contour) : Contour :=
  cs.foldl (fun best d => if area best < area d then d else best) c

/-- The result dictionary of `_perform_slide_comparison`: the key `target` is
always present; `target_x` and `target_y` exist only on the with-contour
branch (lines 178-195), which optional fields model. -/
structure SlideCompareDict where
  target : List ℤ
  target_x : Option ℤ
  target_y : Option ℤ
  deriving DecidableEq, Repr

/-- Lines 176-195 of slide_engine.py, from the contour list on: no contour
gives the degenerate result with only the `target` key; otherwise the
contour of maximal area is selected, its bounding rectangle taken, and the
centre `(x + w // 2, y + h // 2)` reported under all three keys. -/
def slideComparisonFromContours (area : Contour → ℚ) :
    List Contour → SlideCompareDict
  | [] => { target := [0, 0], target_x := none, target_y := none }
  | c :: cs =>
      let largest := pyMaxBy area c cs
      let r := boundingRect largest
      let cx := r.1 + (r.2.2.1).fdiv 2
      let cy := r.2.1 + (r.2.2.2).fdiv 2
      { target := [cx, cy], target_x := some cx, target_y := some cy }

/-- The Python exception classes that can escape the slide entry points.
`ImageProcessError` is a subclass of `DDDDOCRError` (exceptions.py 11-23). -/
inductive ExcClass
  | ddddocrError
  | imageProcessError
  deriving DecidableEq, Repr

/-- Class membership test for the claim: only `ImageProcessError` itself is
an `ImageProcessError`-class failure; the base `DDDDOCRError` is not. -/
def ExcClass.isImageProcessError : ExcClass → Bool
  | .imageProcessError => true
  | .ddddocrError => false

/-- `_perform_slide_comparison(target, background)` (lines 149-198), with the
external `cv2.findContours`/`cv2.contourArea` collaborators passed in as
`findC` and `area`.  A shape mismatch (or an empty raster) makes `cv2.absdiff`
or `cv2.cvtColor` raise inside the inner `try`, which re-raises
`ImageProcessError` (lines 197-198). -/
def perform_slide_comparison (findC : Grid → List Contour) (area : Contour → ℚ)
    (target background : Img) : Except ExcClass SlideCompareDict :=
  if target.height = background.height ∧ target.width = background.width ∧
      0 < target.height ∧ 0 < target.width then
    .ok (slideComparisonFromContours area (findC (diffBinary target background)))
  else
    .error .imageProcessError

/-- The result dictionary of `_simple_template_match`/`_edge_based_match`
(lines 226-231 and 266-271). -/
structure SlideMatchDict where
  target : List ℤ
  target_x : ℤ
  target_y : ℤ
  confidence : ℚ
  deriving DecidableEq, Repr

/-- Shared tail of the two matching strategies: run the external
`cv2.matchTemplate` + `cv2.minMaxLoc` pair (`mml`, returning
`(max_val, max_loc)`), then report the centre
`max_loc + target_size // 2`.  `cv2.matchTemplate` raises unless the
template is non-empty and no larger than the search image; that guard is the
shape-mismatch failure path of `slide_match`. -/
def templateMatchCenter (mml : Grid → Grid → ℚ × ℤ × ℤ)
    (target background : Grid) : Except ExcClass SlideMatchDict :=
  if 0 < target.height ∧ 0 < target.width ∧ target.height ≤ background.height ∧
      target.width ≤ background.width then
    let r := mml background target
    let cx := r.2.1 + ((target.width : ℤ)).fdiv 2
    let cy := r.2.2 + ((target.height : ℤ)).fdiv 2
    .ok { target := [cx, cy], target_x := cx, target_y := cy, confidence := r.1 }
  else
    .error .imageProcessError

/-- `_perform_slide_match` (lines 119-147): grayscale both inputs, then
dispatch on `simple_target` to the raw or the Canny-edge template match.
`cv2.Canny` is an external collaborator modelled as a same-shape pixel
transform `canny`; any failure inside re-raises `ImageProcessError`. -/
def perform_slide_match (mml : Grid → Grid → ℚ × ℤ × ℤ)
    (canny : Grid → ℤ → ℤ → ℕ) (target background : Img)
    (simple_target : Bool) : Except ExcClass SlideMatchDict :=
  if 0 < target.height ∧ 0 < target.width ∧ 0 < background.height ∧
      0 < background.width then
    let tg := rgb2gray target
    let bg := rgb2gray background
    if simple_target then
      templateMatchCenter mml tg bg
    else
      templateMatchCenter mml
        { height := tg.height, width := tg.width, pix := canny tg }
        { height := bg.height, width := bg.width, pix := canny bg }
  else
    .error .imageProcessError

/-- The Python values the slide entry points can receive, by the type cases
of `validate_image_input` (validators.py 15-31) and
`load_image_from_input` (image_io.py 82-119).  For the decodable kinds the
payload is the decoded image; `none` stands for a buffer/path/array that the
loader fails on. -/
inductive ImgInput
  | bytes (decoded : Option Img)
  | str (decoded : Option Img)
  | pilImage (img : Img)
  | ndarray (decoded : Option Img)
  | unsupported
  deriving Inhabited

/-- `validate_image_input` (validators.py 15-31): any value outside the
supported types raises the base `DDDDOCRError`. -/
def validate_image_input : ImgInput → Except ExcClass Unit
  | .unsupported => .error .ddddocrError
  | _ => .ok ()

/-- `load_image_from_input` (image_io.py 82-119): produces the decoded image
or raises `ImageProcessError`. -/
def load_image_from_input : ImgInput → Except ExcClass Img
  | .bytes (some i) => .ok i
  | .str (some i) => .ok i
  | .pilImage i => .ok i
  | .ndarray (some i) => .ok i
  | .bytes none => .error .imageProcessError
  | .str none => .error .imageProcessError
  | .ndarray none => .error .imageProcessError
  | .unsupported => .error .imageProcessError

/-- `SlideEngine.slide_comparison` (lines 83-117): validate both inputs
before the `try` block (a `DDDDOCRError` from validation propagates as is),
then load, convert and compare inside the `try`, collapsing any failure
there into `ImageProcessError` (lines 116-117). -/
def slide_comparison (findC : Grid → List Contour) (area : Contour → ℚ)
    (target background : ImgInput) : Except ExcClass SlideCompareDict := do
  let _ ← validate_image_input target
  let _ ← validate_image_input background
  match (do
      let t ← load_image_from_input target
      let b ← load_image_from_input background
      perform_slide_comparison findC area t b : Except ExcClass SlideCompareDict) with
  | .ok r => .ok r
  | .error _ => .error .imageProcessError

/-- `SlideEngine.slide_match` (lines 45-81), with the same validate-then-try
structure as `slide_comparison`. -/
def slide_match (mml : Grid → Grid → ℚ × ℤ × ℤ) (canny : Grid → ℤ → ℤ → ℕ)
    (target background : ImgInput) (simple_target : Bool) :
    Except ExcClass SlideMatchDict := do
  let _ ← validate_image_input target
  let _ ← validate_image_input background
  match (do
      let t ← load_image_from_input target
      let b ← load_image_from_input background
      perform_slide_match mml canny t b simple_target :
        Except ExcClass SlideMatchDict) with
  | .ok r => .ok r
  | .error _ => .error .imageProcessError

/-! ## Spec-side definitions and concrete instances used by the theorems. -/

/-- IoU as the spec words it: "intersection area over (areaA + areaB −
intersection), using the inclusive pixel-area convention
(x2−x1+1)*(y2−y1+1) for area", with intersection width and height floored
at 0.  Stated independently of `ovr` so that the round theorem compares the
code's overlap against the spec's formula. -/
def iouSpec (a b : Box) : ℚ :=
  let areaA := (a.x2 - a.x1 + 1) * (a.y2 - a.y1 + 1)
  let areaB := (b.x2 - b.x1 + 1) * (b.y2 - b.y1 + 1)
  let interW := max (min a.x2 b.x2 - max a.x1 b.x1 + 1) 0
  let interH := max (min a.y2 b.y2 - max a.y1 b.y1 + 1) 0
  interW * interH / (areaA + areaB - interW * interH)

/-- In-bounds pixels of a grid are all zero. -/
def InZero (g : Grid) : Prop :=
  ∀ i j : ℤ, 0 ≤ i → i < (g.height : ℤ) → 0 ≤ j → j < (g.width : ℤ) → g.pix i j = 0

/-- Decidable all-zero test over the in-bounds pixels of a grid. -/
def gridAllZero (g : Grid) : Bool :=
  decide (∀ i < g.height, ∀ j < g.width, g.pix (i : ℤ) (j : ℤ) = 0)

/-- Executable model of the external `cv2.findContours(..., RETR_EXTERNAL,
CHAIN_APPROX_SIMPLE)` collaborator, used to instantiate witnesses: an
all-zero mask has no contours; otherwise the nonzero in-bounds pixels are
reported as a single contour (adequate for masks whose nonzero region is one
connected blob, the only kind the concrete theorems below build; the bounding
rectangle of a filled component equals that of its outline). -/
def findContoursModel (g : Grid) : List Contour :=
  if gridAllZero g then []
  else
    [(List.range g.height).flatMap fun i =>
      (List.range g.width).filterMap fun j =>
        if g.pix (i : ℤ) (j : ℤ) ≠ 0 then some ((j : ℤ), (i : ℤ)) else none]

/-- Stand-in for the external `cv2.contourArea` collaborator.  Its values are
irrelevant to every theorem below: the concrete masks used have a single
contour, and `pyMaxBy` over a singleton never consults the key. -/
def cvContourArea0 : Contour → ℚ := fun _ => 0

/-- A 2x2 uniform mid-gray image (used for the identical-image witnesses). -/
def imgConst2 : Img := { height := 2, width := 2, pix := fun _ _ => (7, 7, 7) }

/-- A 1x1 white image. -/
def imgWhite1 : Img := { height := 1, width := 1, pix := fun _ _ => (255, 255, 255) }

/-- A 1x1 black image. -/
def imgBlack1 : Img := { height := 1, width := 1, pix := fun _ _ => (0, 0, 0) }

/-- Four candidate boxes with scores 9/8/7/6 whose greedy NMS keeps three
boxes at threshold 1/20 but only two at the larger threshold 9/25. -/
def nmsCexRows : List Scored :=
  [(⟨0, 0, 9, 9⟩, 9), (⟨8, 0, 27, 9⟩, 8),
   (⟨10, 0, 19, 9⟩, 7), (⟨20, 0, 29, 9⟩, 6)]

/-- Two disjoint boxes with equal scores: a tie that the reversed stable sort
reorders on every pass. -/
def tieRows : List Scored := [(⟨0, 0, 1, 1⟩, 5), (⟨10, 10, 11, 11⟩, 5)]

/-- The invalid-input condition of the claim for `slide_comparison`: an
unsupported value, an undecodable buffer, or decodable inputs of mismatched
(or empty) shape. -/
def comparisonInvalid (t b : ImgInput) : Prop :=
  (∀ ti, load_image_from_input t ≠ .ok ti) ∨
  (∀ bi, load_image_from_input b ≠ .ok bi) ∨
  (∀ ti bi, load_image_from_input t = .ok ti → load_image_from_input b = .ok bi →
    ¬ (ti.height = bi.height ∧ ti.width = bi.width ∧ 0 < ti.height ∧ 0 < ti.width))

/-- The invalid-input condition of the claim for `slide_match`: an
unsupported value, an undecodable buffer, or a template that does not fit
inside the background. -/
def matchInvalid (t b : ImgInput) : Prop :=
  (∀ ti, load_image_from_input t ≠ .ok ti) ∨
  (∀ bi, load_image_from_input b ≠ .ok bi) ∨
  (∀ ti bi, load_image_from_input t = .ok ti → load_image_from_input b = .ok bi →
    ¬ (0 < ti.height ∧ 0 < ti.width ∧ ti.height ≤ bi.height ∧ ti.width ≤ bi.width))

/-- An input is one of the supported Python types (everything except the
`unsupported` case that `validate_image_input` rejects). -/
def supportedType : ImgInput → Bool
  | .unsupported => false
  | _ => true

/-- A concrete prediction row: four box coordinates, objectness 2, class
scores 1 and 3. -/
def predEx : List ℚ := [0, 0, 0, 0, 2, 1, 3]

/-- Two disjoint boxes with pairwise-distinct scores. -/
def distinctRows : List Scored := [(⟨0, 0, 1, 1⟩, 9), (⟨5, 5, 6, 6⟩, 6)]

/-! ## Structural lemmas about the greedy suppression loop. -/

theorem nmsLoopFuel_congr (thr : ℚ) :
    ∀ (n m : ℕ) (l : List Scored), l.length ≤ n → l.length ≤ m →
      nmsLoopFuel thr n l = nmsLoopFuel thr m l := by
  intro n
  induction n with
  | zero =>
      intro m l hn _
      have : l = [] := List.length_eq_zero.mp (Nat.le_zero.mp hn)
      subst this
      cases m <;> rfl
  | succ n ih =>
      intro m l hn hm
      cases l with
      | nil => cases m <;> rfl
      | cons b rest =>
          cases m with
          | zero => exact absurd hm (by simp)
          | succ m =>
              simp only [nmsLoopFuel]
              congr 1
              exact ih m _
                (le_trans (List.length_filter_le _ _) (Nat.le_of_succ_le_succ hn))
                (le_trans (List.length_filter_le _ _) (Nat.le_of_succ_le_succ hm))

/-- One unfolding of the greedy loop. -/
theorem nmsLoop_cons (thr : ℚ) (b : Scored) (rest : List Scored) :
    nmsLoop thr (b :: rest) =
      b :: nmsLoop thr (rest.filter fun c => decide (ovr b.1 c.1 ≤ thr)) := by
  simp only [nmsLoop, List.length_cons, nmsLoopFuel]
  congr 1
  exact nmsLoopFuel_congr thr rest.length _ _ (List.length_filter_le _ _) le_rfl

theorem nmsLoop_nil (thr : ℚ) : nmsLoop thr [] = [] := rfl

theorem nmsLoopFuel_sublist (thr : ℚ) :
    ∀ (n : ℕ) (l : List Scored), List.Sublist (nmsLoopFuel thr n l) l := by
  intro n
  induction n with
  | zero => intro l; exact List.nil_sublist l
  | succ n ih =>
      intro l
      cases l with
      | nil => exact List.Sublist.refl []
      | cons b rest =>
          simp only [nmsLoopFuel]
          exact List.Sublist.cons₂ b
            (List.Sublist.trans (ih _) (List.filter_sublist rest))

theorem nmsLoop_sublist (thr : ℚ) (l : List Scored) : List.Sublist (nmsLoop thr l) l :=
  nmsLoopFuel_sublist thr l.length l

/-- Every pair of entries surviving the greedy loop overlaps by at most the
threshold: a later survivor passed the filter round of every earlier one. -/
theorem nmsLoopFuel_pairwise (thr : ℚ) :
    ∀ (n : ℕ) (l : List Scored),
      (nmsLoopFuel thr n l).Pairwise fun a c => ovr a.1 c.1 ≤ thr := by
  intro n
  induction n with
  | zero => intro l; exact List.Pairwise.nil
  | succ n ih =>
      intro l
      cases l with
      | nil => exact List.Pairwise.nil
      | cons b rest =>
          simp only [nmsLoopFuel]
          refine List.Pairwise.cons ?_ (ih _)
          intro c hc
          have hmem : c ∈ rest.filter fun c => decide (ovr b.1 c.1 ≤ thr) :=
            (nmsLoopFuel_sublist thr n _).subset hc
          simpa using (List.of_mem_filter hmem)

theorem nmsLoop_pairwise (thr : ℚ) (l : List Scored) :
    (nmsLoop thr l).Pairwise fun a c => ovr a.1 c.1 ≤ thr :=
  nmsLoopFuel_pairwise thr l.length l

/-- A list whose entries already pairwise respect the threshold passes the
greedy loop unchanged. -/
theorem nmsLoopFuel_fixpoint (thr : ℚ) :
    ∀ (n : ℕ) (l : List Scored), l.length ≤ n →
      l.Pairwise (fun a c => ovr a.1 c.1 ≤ thr) → nmsLoopFuel thr n l = l := by
  intro n
  induction n with
  | zero =>
      intro l hn _
      have : l = [] := List.length_eq_zero.mp (Nat.le_zero.mp hn)
      simp [this, nmsLoopFuel]
  | succ n ih =>
      intro l hn hp
      cases l with
      | nil => rfl
      | cons b rest =>
          rcases List.pairwise_cons.mp hp with ⟨hb, hrest⟩
          have hf : (rest.filter fun c => decide (ovr b.1 c.1 ≤ thr)) = rest := by
            apply List.filter_eq_self.mpr
            intro c hc
            simpa using hb c hc
          simp only [nmsLoopFuel, hf]
          rw [ih rest (Nat.le_of_succ_le_succ hn) hrest]

theorem nmsLoop_fixpoint (thr : ℚ) (l : List Scored)
    (hp : l.Pairwise fun a c => ovr a.1 c.1 ≤ thr) : nmsLoop thr l = l :=
  nmsLoopFuel_fixpoint thr l.length l le_rfl hp

/-! ## Lemmas about the row-score reduction. -/

theorem rowScore_eq_maxVal : ∀ s : List ℚ, s ≠ [] → rowScore s = maxVal s := by
  intro s
  induction s with
  | nil => intro h; exact absurd rfl h
  | cons x xs ih =>
      intro _
      cases xs with
      | nil => rfl
      | cons y ys =>
          by_cases h : x < maxVal (y :: ys)
          · have := ih (by simp)
            simp only [rowScore, argmaxFirst, maxVal, if_pos h, List.getD_cons_succ]
            rw [show (y :: ys).getD (argmaxFirst (y :: ys)) 0 = rowScore (y :: ys) from rfl,
              this, max_eq_right (le_of_lt h)]
          · simp only [rowScore, argmaxFirst, maxVal, if_neg h, List.getD_cons_zero]
            exact (max_eq_left (le_of_not_lt h)).symm

theorem maxVal_map_mul (c : ℚ) (hc : 0 ≤ c) :
    ∀ l : List ℚ, maxVal (l.map (c * ·)) = c * maxVal l := by
  intro l
  induction l with
  | nil => simp [maxVal]
  | cons x xs ih =>
      cases xs with
      | nil => simp [maxVal]
      | cons y ys =>
          simp only [List.map_cons, maxVal] at ih ⊢
          rw [ih, mul_max_of_nonneg _ _ hc]

theorem argmaxFirst_map_mul (c : ℚ) (hc : 0 < c) :
    ∀ l : List ℚ, argmaxFirst (l.map (c * ·)) = argmaxFirst l := by
  intro l
  induction l with
  | nil => rfl
  | cons x xs ih =>
      cases xs with
      | nil => rfl
      | cons y ys =>
          simp only [List.map_cons, argmaxFirst]
          rw [show ((c * y) :: List.map (fun x => c * x) ys) =
                (y :: ys).map (c * ·) by simp,
            maxVal_map_mul c (le_of_lt hc), ih]
          by_cases h : x < maxVal (y :: ys)
          · rw [if_pos ((mul_lt_mul_left hc).mpr h), if_pos h]
          · rw [if_neg (fun hlt => h ((mul_lt_mul_left hc).mp hlt)), if_neg h]

/-! ## Lemmas about truncation toward zero. -/

theorem pyInt_nonneg (q : ℚ) (h : 0 ≤ q) : 0 ≤ pyInt q := by
  rw [pyInt, if_neg (not_lt.mpr h)]
  exact Int.floor_nonneg.mpr h

theorem pyInt_mono {q p : ℚ} (h : q ≤ p) : pyInt q ≤ pyInt p := by
  unfold pyInt
  split_ifs with hq hp hp
  · exact Int.ceil_le_ceil h
  · calc ⌈q⌉ ≤ 0 := Int.ceil_le.mpr (by exact_mod_cast le_of_lt hq)
      _ ≤ ⌊p⌋ := Int.floor_nonneg.mpr (not_lt.mp hp)
  · exact absurd (lt_of_le_of_lt h hp) hq
  · exact Int.floor_le_floor h

theorem pyInt_le_intCast (q : ℚ) (n : ℤ) (h : q ≤ (n : ℚ)) : pyInt q ≤ n := by
  have := pyInt_mono h
  rwa [show pyInt (n : ℚ) = n by simp [pyInt, Int.floor_intCast, Int.ceil_intCast]] at this

/-- One coordinate pair of the clamping loop: if the raw interval is ordered,
reaches coordinate 0, and starts no later than the image extent, the clamped
pair is ordered and within the image. -/
theorem clamp_coord_bounds (lo hi : ℚ) (n : ℕ) (h1 : lo ≤ hi) (h2 : 0 ≤ hi)
    (h3 : lo ≤ (n : ℚ)) :
    0 ≤ (if lo < 0 then 0 else pyInt lo) ∧
    (if lo < 0 then 0 else pyInt lo) ≤ (if (n : ℚ) < hi then (n : ℤ) else pyInt hi) ∧
    (if (n : ℚ) < hi then (n : ℤ) else pyInt hi) ≤ (n : ℤ) := by
  refine ⟨?_, ?_, ?_⟩
  · split_ifs with h
    · exact le_rfl
    · exact pyInt_nonneg lo (not_lt.mp h)
  · split_ifs with ha hb hb
    · exact Int.natCast_nonneg n
    · exact pyInt_nonneg hi h2
    · exact pyInt_le_intCast lo (n : ℤ) (by exact_mod_cast h3)
    · exact pyInt_mono h1
  · split_ifs with h
    · exact le_rfl
    · exact pyInt_le_intCast hi (n : ℤ) (by exact_mod_cast not_lt.mp h)

/-! ## Claim theorems: detection. -/

/-- C1 (corrected): the claim as stated fails — the clamping loop of
`get_bbox` clamps `x_min`/`y_min` only from below and `x_max`/`y_max` only
from above, so a candidate box lying entirely outside the image emerges
unordered.  A decoded row whose box is `(20, 20, 30, 30)` with reduced score
2 passes the score filter and NMS on a 10x10 image, and the emitted box
`(20, 20, 10, 10)` violates `x_min ≤ x_max ≤ W`. -/
theorem C1_counterexample :
    get_bbox_tail [(⟨20, 20, 30, 30⟩, [2])] 10 10 = [⟨20, 20, 10, 10⟩] ∧
    ¬ boxInBounds ⟨20, 20, 10, 10⟩ 10 10 := by
  constructor
  · have h1 : (1 : ℚ)/10 < rowScore [2] := by
      rw [show rowScore [2] = 2 from rfl]
      norm_num
    have h2 : pyInt 20 = 20 := by
      rw [pyInt, if_neg (by norm_num)]
      norm_num
    simp only [get_bbox_tail, multiclass_nms_class_agnostic, List.filter_cons,
      List.filter_nil, decide_eq_true h1, if_true, List.isEmpty_cons,
      Bool.false_eq_true, if_false, List.map_cons, List.map_nil]
    rw [show sortScoreDesc [((⟨20, 20, 30, 30⟩ : Box), rowScore [2])] =
        [((⟨20, 20, 30, 30⟩ : Box), rowScore [2])] from rfl,
      nmsLoop_cons, List.filter_nil, nmsLoop_nil, List.map_cons, List.map_nil]
    rw [show (clampBox ⟨20, 20, 30, 30⟩ 10 10) =
        ⟨pyInt 20, pyInt 20, 10, 10⟩ by rw [clampBox]; norm_num]
    rw [h2]
  · decide

/-- C1 (amended): every box emitted by the clamping loop of `get_bbox`
satisfies `0 ≤ x_min ≤ x_max ≤ image_width` and
`0 ≤ y_min ≤ y_max ≤ image_height`, provided the surviving box is ordered
(`x1 ≤ x2`, `y1 ≤ y2`) and meets the image band (`0 ≤ x2`, `x1 ≤ W`, and
likewise vertically) — the conditions the clamp-only-one-side code needs. -/
theorem C1_clamp_in_bounds (b : Box) (W H : ℕ)
    (hx : b.x1 ≤ b.x2) (hy : b.y1 ≤ b.y2) (hx2 : 0 ≤ b.x2) (hy2 : 0 ≤ b.y2)
    (hx1 : b.x1 ≤ (W : ℚ)) (hy1 : b.y1 ≤ (H : ℚ)) :
    boxInBounds (clampBox b W H) W H := by
  obtain ⟨a1, a2, a3⟩ := clamp_coord_bounds b.x1 b.x2 W hx hx2 hx1
  obtain ⟨c1, c2, c3⟩ := clamp_coord_bounds b.y1 b.y2 H hy hy2 hy1
  exact ⟨a1, a2, a3, c1, c2, c3⟩

/-- Witness for C1: the amended theorem applied to a concrete box. -/
theorem C1_witness : boxInBounds (clampBox ⟨1/2, -3, 3, 12⟩ 10 10) 10 10 :=
  C1_clamp_in_bounds ⟨1/2, -3, 3, 12⟩ 10 10 (by norm_num) (by norm_num)
    (by norm_num) (by norm_num) (by norm_num) (by norm_num)

/-- C2 (confirmed): when no candidate row scores strictly above the fixed
threshold 0.1, `multiclass_nms_class_agnostic` returns `None`, the subscript
in `get_bbox` raises, the handler catches, and `get_bbox` returns the empty
list — zero detections, not an error. -/
theorem C2_no_candidates_empty (rows : List (Box × List ℚ)) (W H : ℕ)
    (h : ∀ r ∈ rows, rowScore r.2 ≤ 1/10) :
    get_bbox_tail rows W H = [] := by
  have hv : (rows.filter fun r => decide ((1 : ℚ)/10 < rowScore r.2)) = [] := by
    apply List.filter_eq_nil_iff.mpr
    intro r hr
    simpa using not_lt.mpr (h r hr)
  simp only [get_bbox_tail, multiclass_nms_class_agnostic, hv, List.isEmpty_nil,
    if_true]

/-- Witness for C2: a single zero-scored row yields the empty box list. -/
theorem C2_witness : get_bbox_tail [(⟨0, 0, 1, 1⟩, [0, 0])] 5 5 = [] :=
  C2_no_candidates_empty [(⟨0, 0, 1, 1⟩, [0, 0])] 5 5 (by
    intro r hr
    rw [List.mem_singleton.mp hr]
    rw [show rowScore ((⟨0, 0, 1, 1⟩ : Box), [(0 : ℚ), 0]).2 = 0 from rfl]
    norm_num)

/-- Decoding preserves everything from column 4 on, row by row. -/
theorem zipWith_decodeRow_drop4 (expf : ℚ → ℚ) :
    ∀ (gs : List (ℕ × ℕ × ℕ)) (rows : List (List ℚ)), rows.length = gs.length →
      (List.zipWith (decodeRow expf) gs rows).map (List.drop 4) =
        rows.map (List.drop 4) := by
  intro gs
  induction gs with
  | nil =>
      intro rows h
      rw [List.length_eq_zero.mp h]
      rfl
  | cons g gs ih =>
      intro rows h
      cases rows with
      | nil => simp at h
      | cons r rs =>
          simp only [List.zipWith_cons_cons, List.map_cons]
          rw [ih rs (by simpa using h)]
          rfl

/-- C3 (corrected): the claim as stated fails — `demo_postprocess` assigns
into `outputs[..., :2]` and `outputs[..., 2:4]` in place, so the caller's
tensor is mutated: on the single-row tensor `[[1, 0, 0, 0, 1]]` for an 8x8
input (one stride-8 cell), the buffer afterwards holds `[[8, 0, s, s, 1]]`,
not the original row. -/
theorem C3_counterexample :
    demo_postprocess (fun _ => 1) 8 8 false [[1, 0, 0, 0, 1]] ≠
      [[1, 0, 0, 0, 1]] := by
  intro h
  have h0 := congrArg (fun l => (l.getD 0 []).getD 0 0) h
  rw [demo_postprocess, show buildGrid 8 8 false = [(0, 0, 8)] from rfl] at h0
  simp only [List.zipWith_cons_cons, List.zipWith_nil_right, decodeRow,
    List.getD_cons_zero] at h0
  norm_num at h0

/-- C3 (amended): `demo_postprocess` overwrites only the first four columns
of each row of the caller's tensor, in place: the returned buffer has the
same rows, and every row agrees with the corresponding input row on all
columns from index 4 on (objectness and class scores are untouched). -/
theorem C3_tail_columns_preserved (expf : ℚ → ℚ) (imgH imgW : ℕ) (p6 : Bool)
    (outputs : List (List ℚ))
    (hlen : outputs.length = (buildGrid imgH imgW p6).length) :
    (demo_postprocess expf imgH imgW p6 outputs).map (List.drop 4) =
      outputs.map (List.drop 4) :=
  zipWith_decodeRow_drop4 expf (buildGrid imgH imgW p6) outputs hlen

/-- Witness for C3: the amended theorem at a one-row tensor. -/
theorem C3_witness :
    (demo_postprocess (fun _ => 1) 8 8 false [[1, 2, 3, 4, 5, 6]]).map
        (List.drop 4) =
      [[1, 2, 3, 4, 5, 6]].map (List.drop 4) :=
  C3_tail_columns_preserved (fun _ => 1) 8 8 false [[1, 2, 3, 4, 5, 6]] rfl

/-- C4 (corrected): the claim as stated fails — across rounds, greedy NMS is
not monotone in the IoU threshold.  On `nmsCexRows`, the smaller threshold
1/20 suppresses the score-8 box in the first round, which then leaves the
boxes it overlapped free to survive: three boxes are kept at 1/20 but only
two at 9/25. -/
theorem C4_counterexample :
    (1/20 : ℚ) ≤ 9/25 ∧
    ¬ ((nms nmsCexRows (1/20)).length ≤ (nms nmsCexRows (9/25)).length) := by
  have hs : sortScoreDesc nmsCexRows = nmsCexRows := rfl
  have f1 : ¬ (ovr ⟨0, 0, 9, 9⟩ ⟨8, 0, 27, 9⟩ ≤ 1/20) := by
    norm_num [ovr, interArea, Box.area]
  have f2 : ovr ⟨0, 0, 9, 9⟩ ⟨10, 0, 19, 9⟩ ≤ 1/20 := by
    norm_num [ovr, interArea, Box.area]
  have f3 : ovr ⟨0, 0, 9, 9⟩ ⟨20, 0, 29, 9⟩ ≤ 1/20 := by
    norm_num [ovr, interArea, Box.area]
  have f4 : ovr ⟨10, 0, 19, 9⟩ ⟨20, 0, 29, 9⟩ ≤ 1/20 := by
    norm_num [ovr, interArea, Box.area]
  have g1 : ovr ⟨0, 0, 9, 9⟩ ⟨8, 0, 27, 9⟩ ≤ 9/25 := by
    norm_num [ovr, interArea, Box.area]
  have g2 : ovr ⟨0, 0, 9, 9⟩ ⟨10, 0, 19, 9⟩ ≤ 9/25 := by
    norm_num [ovr, interArea, Box.area]
  have g3 : ovr ⟨0, 0, 9, 9⟩ ⟨20, 0, 29, 9⟩ ≤ 9/25 := by
    norm_num [ovr, interArea, Box.area]
  have g4 : ¬ (ovr ⟨8, 0, 27, 9⟩ ⟨10, 0, 19, 9⟩ ≤ 9/25) := by
    norm_num [ovr, interArea, Box.area]
  have g5 : ¬ (ovr ⟨8, 0, 27, 9⟩ ⟨20, 0, 29, 9⟩ ≤ 9/25) := by
    norm_num [ovr, interArea, Box.area]
  have e1 : nms nmsCexRows (1/20) =
      [(⟨0, 0, 9, 9⟩, 9), (⟨10, 0, 19, 9⟩, 7), (⟨20, 0, 29, 9⟩, 6)] := by
    rw [nms, hs,
      show nmsCexRows = (⟨0, 0, 9, 9⟩, (9 : ℚ)) :: (⟨8, 0, 27, 9⟩, (8 : ℚ)) ::
        (⟨10, 0, 19, 9⟩, (7 : ℚ)) :: [(⟨20, 0, 29, 9⟩, (6 : ℚ))] from rfl,
      nmsLoop_cons]
    simp only [List.filter_cons, List.filter_nil, decide_eq_false f1,
      decide_eq_true f2, decide_eq_true f3, decide_eq_true f4,
      Bool.false_eq_true, if_false, if_true]
    rw [nmsLoop_cons]
    simp only [List.filter_cons, List.filter_nil, decide_eq_true f4, if_true]
    rw [nmsLoop_cons, List.filter_nil, nmsLoop_nil]
  have e2 : nms nmsCexRows (9/25) =
      [(⟨0, 0, 9, 9⟩, 9), (⟨8, 0, 27, 9⟩, 8)] := by
    rw [nms, hs,
      show nmsCexRows = (⟨0, 0, 9, 9⟩, (9 : ℚ)) :: (⟨8, 0, 27, 9⟩, (8 : ℚ)) ::
        (⟨10, 0, 19, 9⟩, (7 : ℚ)) :: [(⟨20, 0, 29, 9⟩, (6 : ℚ))] from rfl,
      nmsLoop_cons]
    simp only [List.filter_cons, List.filter_nil, decide_eq_true g1,
      decide_eq_true g2, decide_eq_true g3, if_true]
    rw [nmsLoop_cons]
    simp only [List.filter_cons, List.filter_nil, decide_eq_false g4,
      decide_eq_false g5, Bool.false_eq_true, if_false]
    rw [nmsLoop_nil]
  refine ⟨by norm_num, ?_⟩
  rw [e1, e2]
  decide

/-- C4 (amended): within a single greedy round, suppression against the
selected box is monotone in the threshold: with `t1 ≤ t2`, the pooled boxes
surviving the round at `t1` are a sublist of those surviving at `t2`, so the
round keeps no more boxes at the smaller threshold.  (Across rounds the count
is not monotone, as the counterexample shows.) -/
theorem C4_round_monotone (t1 t2 : ℚ) (h : t1 ≤ t2) (sel : Box)
    (pool : List Scored) :
    (pool.filter fun c => decide (ovr sel c.1 ≤ t1)).length ≤
      (pool.filter fun c => decide (ovr sel c.1 ≤ t2)).length := by
  apply List.Sublist.length_le
  apply List.monotone_filter_right
  intro c hc
  simp only [decide_eq_true_eq] at hc ⊢
  exact le_trans hc h

/-- Witness for C4: the amended theorem at concrete thresholds and pool. -/
theorem C4_witness :
    (nmsCexRows.filter fun c => decide (ovr ⟨0, 0, 9, 9⟩ c.1 ≤ 1/20)).length ≤
      (nmsCexRows.filter fun c => decide (ovr ⟨0, 0, 9, 9⟩ c.1 ≤ 9/25)).length :=
  C4_round_monotone (1/20) (9/25) (by norm_num) ⟨0, 0, 9, 9⟩ nmsCexRows

/-- The code's overlap ratio coincides with the spec's IoU formula. -/
theorem iouSpec_eq_ovr (a b : Box) : iouSpec a b = ovr a b := by
  simp only [iouSpec, ovr, interArea, Box.area]
  rw [max_comm (min a.x2 b.x2 - max a.x1 b.x1 + 1) 0,
    max_comm (min a.y2 b.y2 - max a.y1 b.y1 + 1) 0]

/-- C5 (confirmed): in each greedy round, after the highest-scoring remaining
entry is selected, exactly the pooled entries whose IoU with it — computed as
intersection over (areaA + areaB − intersection) with inclusive pixel areas
and intersection extents floored at 0 — is at most `t_nms` survive; all with
IoU strictly above `t_nms` are discarded. -/
theorem C5_round_discards_by_iou (thr : ℚ) (sel : Scored) (pool : List Scored) :
    nmsLoop thr (sel :: pool) =
      sel :: nmsLoop thr (pool.filter fun c => decide (iouSpec sel.1 c.1 ≤ thr)) := by
  have hpq : (fun c : Scored => decide (ovr sel.1 c.1 ≤ thr)) =
      (fun c : Scored => decide (iouSpec sel.1 c.1 ≤ thr)) := by
    funext c
    rw [iouSpec_eq_ovr]
  rw [nmsLoop_cons, hpq]

/-- C6 (confirmed, for positive objectness): for a prediction row, the score
the suppressor filters on equals objectness times the maximum class score,
the class index is the argmax over the class scores (objectness scaling does
not disturb the first-maximum), and a row enters the valid set iff that score
is strictly above `t_score`. -/
theorem C6_score_class_filter (rows : List (List ℚ)) (pred : List ℚ)
    (tscore : ℚ) (hobj : 0 < pred.getD 4 0) (hne : pred.drop 5 ≠ []) :
    rowScore (scoreRow pred) = pred.getD 4 0 * maxVal (pred.drop 5) ∧
    argmaxFirst (scoreRow pred) = argmaxFirst (pred.drop 5) ∧
    (pred ∈ rows.filter (fun p => decide (tscore < rowScore (scoreRow p))) ↔
      pred ∈ rows ∧ tscore < pred.getD 4 0 * maxVal (pred.drop 5)) := by
  have hmap : scoreRow pred = (pred.drop 5).map (pred.getD 4 0 * ·) := rfl
  have hnonnil : scoreRow pred ≠ [] := by
    rw [hmap]
    simpa using hne
  have h1 : rowScore (scoreRow pred) = pred.getD 4 0 * maxVal (pred.drop 5) := by
    rw [rowScore_eq_maxVal _ hnonnil, hmap, maxVal_map_mul _ (le_of_lt hobj)]
  refine ⟨h1, ?_, ?_⟩
  · rw [hmap]
    exact argmaxFirst_map_mul _ hobj _
  · rw [List.mem_filter, h1]
    simp

/-- Witness for C6: the theorem at a concrete row with objectness 2 and
class scores 1 and 3. -/
theorem C6_witness :
    rowScore (scoreRow predEx) = predEx.getD 4 0 * maxVal (predEx.drop 5) ∧
    argmaxFirst (scoreRow predEx) = argmaxFirst (predEx.drop 5) ∧
    (predEx ∈ [predEx].filter (fun p => decide ((1 : ℚ) < rowScore (scoreRow p))) ↔
      predEx ∈ [predEx] ∧ (1 : ℚ) < predEx.getD 4 0 * maxVal (predEx.drop 5)) :=
  C6_score_class_filter [predEx] predEx 1 (by decide) (by decide)

/-- Inserting below every element of a list appends at its end. -/
theorem orderedInsert_append (a : Scored) :
    ∀ ys : List Scored, (∀ y ∈ ys, ¬ scoreLE a y) →
      List.orderedInsert scoreLE a ys = ys ++ [a] := by
  intro ys
  induction ys with
  | nil => intro _; rfl
  | cons y ys ih =>
      intro h
      rw [List.orderedInsert, if_neg (h y (by simp)), ih fun z hz => h z (by simp [hz])]
      rfl

/-- The stable ascending sort of a strictly descending list is its reverse. -/
theorem insertionSort_of_strictDesc :
    ∀ l : List Scored, l.Pairwise (fun x y => y.2 < x.2) →
      List.insertionSort scoreLE l = l.reverse := by
  intro l
  induction l with
  | nil => intro _; rfl
  | cons a rest ih =>
      intro hp
      rcases List.pairwise_cons.mp hp with ⟨ha, hrest⟩
      rw [List.insertionSort, ih hrest, List.reverse_cons, orderedInsert_append]
      intro y hy
      rw [List.mem_reverse] at hy
      simp only [scoreLE]
      exact not_le.mpr (ha y hy)

/-- A strictly descending list is a fixed point of the descending sort. -/
theorem sortScoreDesc_strictDesc (l : List Scored)
    (hp : l.Pairwise fun x y => y.2 < x.2) : sortScoreDesc l = l := by
  rw [sortScoreDesc, insertionSort_of_strictDesc l hp, List.reverse_reverse]

/-- The descending sort is sorted by non-increasing score. -/
theorem sortScoreDesc_sorted (l : List Scored) :
    (sortScoreDesc l).Pairwise fun a b => b.2 ≤ a.2 := by
  rw [sortScoreDesc, List.pairwise_reverse]
  exact List.sorted_insertionSort scoreLE l

/-- The descending sort permutes its input. -/
theorem sortScoreDesc_perm (l : List Scored) : (sortScoreDesc l).Perm l :=
  (List.reverse_perm _).trans (List.perm_insertionSort scoreLE l)

/-- C7 (corrected, amended side): when the candidate scores are pairwise
distinct, the Suppressor — score filter followed by greedy NMS at the same
thresholds — is idempotent: applied to its own output it returns the
identical list.  (With tied scores the kept set is preserved but the tied
entries come back reversed, as the counterexample shows, because
`argsort()[::-1]` reverses ties on every pass.) -/
theorem C7_idempotent_distinct (nms_thr score_thr : ℚ) (rows : List Scored)
    (hd : rows.Pairwise fun a b => a.2 ≠ b.2) :
    suppressor nms_thr score_thr (suppressor nms_thr score_thr rows) =
      suppressor nms_thr score_thr rows := by
  simp only [suppressor]
  set valid := rows.filter (fun r => decide (score_thr < r.2)) with hvalid
  set out := nmsLoop nms_thr (sortScoreDesc valid) with hout
  have hsub : List.Sublist out (sortScoreDesc valid) := nmsLoop_sublist _ _
  have hperm : (sortScoreDesc valid).Perm valid := sortScoreDesc_perm valid
  have hpass : ∀ r ∈ out, score_thr < r.2 := by
    intro r hr
    have hm : r ∈ valid := hperm.subset (hsub.subset hr)
    simpa using List.of_mem_filter hm
  have hdesc : out.Pairwise fun a b => b.2 ≤ a.2 :=
    (sortScoreDesc_sorted valid).sublist hsub
  have hvaliddist : valid.Pairwise fun a b => a.2 ≠ b.2 :=
    hd.sublist (List.filter_sublist rows)
  have hsorteddist : (sortScoreDesc valid).Pairwise fun a b => a.2 ≠ b.2 :=
    (List.Perm.pairwise_iff (fun h => Ne.symm h) hperm).mpr hvaliddist
  have houtdist : out.Pairwise fun a b => a.2 ≠ b.2 := hsorteddist.sublist hsub
  have hstrict : out.Pairwise fun a b => b.2 < a.2 :=
    (hdesc.and houtdist).imp fun h => lt_of_le_of_ne h.1 (Ne.symm h.2)
  have hok : out.Pairwise fun a c => ovr a.1 c.1 ≤ nms_thr :=
    nmsLoop_pairwise _ _
  rw [List.filter_eq_self.mpr fun r hr => decide_eq_true (hpass r hr),
    sortScoreDesc_strictDesc out hstrict, nmsLoop_fixpoint _ _ hok]

/-- Witness for C7: the idempotence theorem at two distinct-score rows. -/
theorem C7_witness :
    suppressor 0 0 (suppressor 0 0 distinctRows) = suppressor 0 0 distinctRows :=
  C7_idempotent_distinct 0 0 distinctRows (by decide)

/-- C7 (corrected, counterexample): on two disjoint boxes with tied scores,
the Suppressor applied to its own output returns the tied entries in the
opposite order — `argsort()` is stable ascending, so the trailing `[::-1]`
reverses equal scores on every pass — refuting "returns exactly the same
boxes in the same order". -/
theorem C7_counterexample :
    suppressor 0 0 (suppressor 0 0 tieRows) ≠ suppressor 0 0 tieRows := by
  have hAB : ovr ⟨0, 0, 1, 1⟩ ⟨10, 10, 11, 11⟩ ≤ 0 := by
    norm_num [ovr, interArea, Box.area]
  have hBA : ovr ⟨10, 10, 11, 11⟩ ⟨0, 0, 1, 1⟩ ≤ 0 := by
    norm_num [ovr, interArea, Box.area]
  have e1 : suppressor 0 0 tieRows =
      [(⟨10, 10, 11, 11⟩, 5), (⟨0, 0, 1, 1⟩, 5)] := by
    simp only [suppressor]
    rw [show (tieRows.filter fun r => decide ((0 : ℚ) < r.2)) = tieRows from rfl,
      show sortScoreDesc tieRows =
        (⟨10, 10, 11, 11⟩, (5 : ℚ)) :: [(⟨0, 0, 1, 1⟩, (5 : ℚ))] from rfl,
      nmsLoop_cons]
    simp only [List.filter_cons, List.filter_nil, decide_eq_true hBA, if_true]
    rw [nmsLoop_cons, List.filter_nil, nmsLoop_nil]
  have e2 : suppressor 0 0 [(⟨10, 10, 11, 11⟩, 5), (⟨0, 0, 1, 1⟩, 5)] =
      [(⟨0, 0, 1, 1⟩, 5), (⟨10, 10, 11, 11⟩, 5)] := by
    simp only [suppressor]
    rw [show ([((⟨10, 10, 11, 11⟩ : Box), (5 : ℚ)), (⟨0, 0, 1, 1⟩, 5)].filter
          fun r => decide ((0 : ℚ) < r.2)) =
        [(⟨10, 10, 11, 11⟩, 5), (⟨0, 0, 1, 1⟩, 5)] from rfl,
      show sortScoreDesc [((⟨10, 10, 11, 11⟩ : Box), (5 : ℚ)), (⟨0, 0, 1, 1⟩, 5)] =
        (⟨0, 0, 1, 1⟩, (5 : ℚ)) :: [(⟨10, 10, 11, 11⟩, (5 : ℚ))] from rfl,
      nmsLoop_cons]
    simp only [List.filter_cons, List.filter_nil, decide_eq_true hAB, if_true]
    rw [nmsLoop_cons, List.filter_nil, nmsLoop_nil]
  rw [e1, e2]
  decide

/-! ## Zero-mask propagation through the slide-comparison pipeline. -/

theorem foldl_min_zero : ∀ l : List ℕ, l.foldl min 0 = 0 := by
  intro l
  induction l with
  | nil => rfl
  | cons x xs ih => simpa [Nat.zero_min] using ih

theorem Grid.getD_eq_zero (g : Grid) (h : InZero g) (i j : ℤ) :
    g.getD 0 i j = 0 := by
  rw [Grid.getD]
  split_ifs with hb
  · exact h i j hb.1 hb.2.1 hb.2.2.1 hb.2.2.2
  · rfl

theorem dilate3_pix_zero (g : Grid) (h : InZero g) (i j : ℤ) :
    (dilate3 g).pix i j = 0 := by
  simp [dilate3, offsets3, Grid.getD_eq_zero g h]

theorem dilate3_inZero (g : Grid) (h : InZero g) : InZero (dilate3 g) :=
  fun i j _ _ _ _ => dilate3_pix_zero g h i j

theorem erode3_inZero (g : Grid) (h : InZero g) : InZero (erode3 g) := by
  obtain ⟨gh, gw, gp⟩ := g
  intro i j hi0 hih hj0 hjw
  have hih2 : i < (gh : ℤ) := hih
  have hjw2 : j < (gw : ℤ) := hjw
  have hc : Grid.getD ⟨gh, gw, gp⟩ 255 i j = 0 := by
    rw [Grid.getD]
    split_ifs with hb
    · exact h i j hb.1 hb.2.1 hb.2.2.1 hb.2.2.2
    · exact absurd ⟨hi0, hih2, hj0, hjw2⟩ hb
  show (offsets3.map fun o => Grid.getD ⟨gh, gw, gp⟩ 255 (i + o.1) (j + o.2)).foldl
      min (Grid.getD ⟨gh, gw, gp⟩ 255 i j) = 0
  rw [hc]
  exact foldl_min_zero _

/-- Two in-bounds-identical images produce an all-zero binary mask. -/
theorem diffBinary_inZero (t b : Img)
    (hpix : ∀ i j : ℤ, 0 ≤ i → i < (t.height : ℤ) → 0 ≤ j → j < (t.width : ℤ) →
      t.pix i j = b.pix i j) :
    InZero (diffBinary t b) := by
  have h0 : InZero (thresholdBin 30 255 (rgb2gray (absdiffImg t b))) := by
    intro i j hi0 hih hj0 hjw
    have hd : (absdiffImg t b).pix i j = (0, 0, 0) := by
      simp only [absdiffImg]
      rw [hpix i j hi0 hih hj0 hjw]
      simp
    have hg : (rgb2gray (absdiffImg t b)).pix i j = 0 := by
      simp [rgb2gray, hd]
    simp [thresholdBin, hg]
  exact dilate3_inZero _ (erode3_inZero _ (erode3_inZero _ (dilate3_inZero _ h0)))

theorem inZero_iff_ball (g : Grid) :
    InZero g ↔ ∀ i < g.height, ∀ j < g.width, g.pix (i : ℤ) (j : ℤ) = 0 := by
  constructor
  · intro h i hi j hj
    exact h i j (Int.natCast_nonneg i) (by exact_mod_cast hi)
      (Int.natCast_nonneg j) (by exact_mod_cast hj)
  · intro h i j hi0 hih hj0 hjw
    lift i to ℕ using hi0 with i2
    lift j to ℕ using hj0 with j2
    exact h i2 (by exact_mod_cast hih) j2 (by exact_mod_cast hjw)

/-- The modelled `findContours` returns no contour exactly on all-zero masks. -/
theorem findContoursModel_nil_iff (g : Grid) :
    findContoursModel g = [] ↔
      ∀ i < g.height, ∀ j < g.width, g.pix (i : ℤ) (j : ℤ) = 0 := by
  by_cases h : ∀ i < g.height, ∀ j < g.width, g.pix (i : ℤ) (j : ℤ) = 0
  · simp [findContoursModel, gridAllZero, h]
  · simp [findContoursModel, gridAllZero, h]

/-- C8 (confirmed): on two pixel-identical, equal-shape (non-empty) images,
every pixel of the absolute difference is zero, the threshold at cutoff 30
marks nothing, morphology preserves the empty mask, `findContours` (any
implementation honouring its contract that an all-zero mask has no contours)
finds nothing, and `_perform_slide_comparison` returns the degenerate
target (0, 0) rather than an error. -/
theorem C8_identical_images (findC : Grid → List Contour) (area : Contour → ℚ)
    (t b : Img)
    (hfc : ∀ g : Grid, findC g = [] ↔
      ∀ i < g.height, ∀ j < g.width, g.pix (i : ℤ) (j : ℤ) = 0)
    (hh : t.height = b.height) (hw : t.width = b.width)
    (hH : 0 < t.height) (hW : 0 < t.width)
    (hpix : ∀ i j : ℤ, 0 ≤ i → i < (t.height : ℤ) → 0 ≤ j → j < (t.width : ℤ) →
      t.pix i j = b.pix i j) :
    perform_slide_comparison findC area t b =
      .ok { target := [0, 0], target_x := none, target_y := none } := by
  have hz : InZero (diffBinary t b) := diffBinary_inZero t b hpix
  have hc : findC (diffBinary t b) = [] := (hfc _).mpr ((inZero_iff_ball _).mp hz)
  rw [perform_slide_comparison, if_pos ⟨hh, hw, hH, hW⟩, hc]
  rfl

/-- Witness for C8: a 2x2 uniform image compared against itself. -/
theorem C8_witness :
    perform_slide_comparison findContoursModel cvContourArea0 imgConst2 imgConst2 =
      .ok { target := [0, 0], target_x := none, target_y := none } :=
  C8_identical_images findContoursModel cvContourArea0 imgConst2 imgConst2
    findContoursModel_nil_iff rfl rfl (by decide) (by decide)
    fun _ _ _ _ _ _ => rfl

/-! ## Error-flow helpers for the slide entry points. -/

/-- A supported input passes validation. -/
theorem validate_ok (x : ImgInput) (h : supportedType x = true) :
    validate_image_input x = .ok () := by
  cases x <;> simp_all [supportedType, validate_image_input]

/-- Every input is either supported (validating fine) or the rejected
`unsupported` case. -/
theorem validate_dichotomy (x : ImgInput) :
    (supportedType x = true ∧ validate_image_input x = .ok ()) ∨
    (supportedType x = false ∧ x = ImgInput.unsupported) := by
  cases x <;> simp [supportedType, validate_image_input]

/-- A mismatched (or empty) pair makes the comparison worker raise. -/
theorem perform_slide_comparison_error (findC : Grid → List Contour)
    (area : Contour → ℚ) (ti bi : Img)
    (h : ¬ (ti.height = bi.height ∧ ti.width = bi.width ∧ 0 < ti.height ∧
      0 < ti.width)) :
    perform_slide_comparison findC area ti bi = .error .imageProcessError := by
  rw [perform_slide_comparison, if_neg h]

/-- A template that does not fit (or an empty image) makes the match worker
raise, in either strategy. -/
theorem perform_slide_match_error (mml : Grid → Grid → ℚ × ℤ × ℤ)
    (canny : Grid → ℤ → ℤ → ℕ) (ti bi : Img) (st : Bool)
    (h : ¬ (0 < ti.height ∧ 0 < ti.width ∧ ti.height ≤ bi.height ∧
      ti.width ≤ bi.width)) :
    perform_slide_match mml canny ti bi st = .error .imageProcessError := by
  rw [perform_slide_match]
  by_cases hg : 0 < ti.height ∧ 0 < ti.width ∧ 0 < bi.height ∧ 0 < bi.width
  · rw [if_pos hg]
    obtain ⟨h1, h2, _, _⟩ := hg
    cases st
    · show templateMatchCenter mml
          { height := (rgb2gray ti).height, width := (rgb2gray ti).width,
            pix := canny (rgb2gray ti) }
          { height := (rgb2gray bi).height, width := (rgb2gray bi).width,
            pix := canny (rgb2gray bi) } = .error .imageProcessError
      rw [templateMatchCenter, if_neg]
      exact fun hc => h ⟨h1, h2, hc.2.2.1, hc.2.2.2⟩
    · show templateMatchCenter mml (rgb2gray ti) (rgb2gray bi) =
          .error .imageProcessError
      rw [templateMatchCenter, if_neg]
      exact fun hc => h ⟨h1, h2, hc.2.2.1, hc.2.2.2⟩
  · rw [if_neg hg]

/-- With both inputs validating, an invalid comparison pair errors with
`ImageProcessError`. -/
theorem slide_comparison_supported_invalid (findC : Grid → List Contour)
    (area : Contour → ℚ) (t b : ImgInput)
    (hvt : validate_image_input t = .ok ())
    (hvb : validate_image_input b = .ok ())
    (hinv : comparisonInvalid t b) :
    slide_comparison findC area t b = .error .imageProcessError := by
  have hred : slide_comparison findC area t b =
      (match (do
          let ti ← load_image_from_input t
          let bi ← load_image_from_input b
          perform_slide_comparison findC area ti bi :
            Except ExcClass SlideCompareDict) with
        | .ok r => .ok r
        | .error _ => .error .imageProcessError) := by
    simp only [slide_comparison, hvt, hvb]
    rfl
  rw [hred]
  rcases hlt : load_image_from_input t with e | ti
  · rfl
  · rcases hlb : load_image_from_input b with e | bi
    · rfl
    · rcases hinv with h1 | h2 | h3
      · exact absurd hlt (h1 ti)
      · exact absurd hlb (h2 bi)
      · show (match perform_slide_comparison findC area ti bi with
            | .ok r => Except.ok r
            | .error _ => Except.error ExcClass.imageProcessError) =
            Except.error ExcClass.imageProcessError
        rw [perform_slide_comparison_error findC area ti bi (h3 ti bi hlt hlb)]

/-- With both inputs validating, an invalid match pair errors with
`ImageProcessError`. -/
theorem slide_match_supported_invalid (mml : Grid → Grid → ℚ × ℤ × ℤ)
    (canny : Grid → ℤ → ℤ → ℕ) (t b : ImgInput) (st : Bool)
    (hvt : validate_image_input t = .ok ())
    (hvb : validate_image_input b = .ok ())
    (hinv : matchInvalid t b) :
    slide_match mml canny t b st = .error .imageProcessError := by
  have hred : slide_match mml canny t b st =
      (match (do
          let ti ← load_image_from_input t
          let bi ← load_image_from_input b
          perform_slide_match mml canny ti bi st :
            Except ExcClass SlideMatchDict) with
        | .ok r => .ok r
        | .error _ => .error .imageProcessError) := by
    simp only [slide_match, hvt, hvb]
    rfl
  rw [hred]
  rcases hlt : load_image_from_input t with e | ti
  · rfl
  · rcases hlb : load_image_from_input b with e | bi
    · rfl
    · rcases hinv with h1 | h2 | h3
      · exact absurd hlt (h1 ti)
      · exact absurd hlb (h2 bi)
      · show (match perform_slide_match mml canny ti bi st with
            | .ok r => Except.ok r
            | .error _ => Except.error ExcClass.imageProcessError) =
            Except.error ExcClass.imageProcessError
        rw [perform_slide_match_error mml canny ti bi st (h3 ti bi hlt hlb)]

/-- C9 (corrected): the claim as stated fails for unsupported input types —
`validate_image_input` runs before the `try` block and raises the base
`DDDDOCRError`, which is not an `ImageProcessError`-class failure.  Here
`slide_comparison` on an unsupported value surfaces `DDDDOCRError`. -/
theorem C9_counterexample :
    slide_comparison findContoursModel cvContourArea0 ImgInput.unsupported
        ImgInput.unsupported = .error .ddddocrError ∧
    ExcClass.isImageProcessError .ddddocrError = false :=
  ⟨rfl, rfl⟩

/-- C9 (amended): every invalid or mismatched input to `slide_comparison` or
`slide_match` makes the call raise before returning any result — no partial
results — and the raised class is `ImageProcessError` exactly when both
inputs are of supported Python types; an unsupported type instead raises the
base `DDDDOCRError` from validation, before the `try` block. -/
theorem C9_invalid_inputs_raise (findC : Grid → List Contour)
    (area : Contour → ℚ) (mml : Grid → Grid → ℚ × ℤ × ℤ)
    (canny : Grid → ℤ → ℤ → ℕ) (t b : ImgInput) (st : Bool) :
    (comparisonInvalid t b →
      slide_comparison findC area t b =
        .error (if supportedType t && supportedType b then
          ExcClass.imageProcessError else ExcClass.ddddocrError)) ∧
    (matchInvalid t b →
      slide_match mml canny t b st =
        .error (if supportedType t && supportedType b then
          ExcClass.imageProcessError else ExcClass.ddddocrError)) := by
  rcases validate_dichotomy t with ⟨hst, hvt⟩ | ⟨hst, hteq⟩
  · rcases validate_dichotomy b with ⟨hsb, hvb⟩ | ⟨hsb, hbeq⟩
    · rw [hst, hsb]
      constructor
      · intro hinv
        exact slide_comparison_supported_invalid findC area t b hvt hvb hinv
      · intro hinv
        exact slide_match_supported_invalid mml canny t b st hvt hvb hinv
    · subst hbeq
      rw [hst, hsb]
      constructor
      · intro _
        simp only [slide_comparison, hvt]
        rfl
      · intro _
        simp only [slide_match, hvt]
        rfl
  · subst hteq
    rw [hst]
    exact ⟨fun _ => rfl, fun _ => rfl⟩

/-- Witness for C9: the amended theorem at an undecodable byte buffer
against a decodable image (both supported types, so the failure class is
`ImageProcessError`). -/
theorem C9_witness :
    slide_comparison findContoursModel cvContourArea0 (ImgInput.bytes none)
        (ImgInput.pilImage imgBlack1) =
      .error (if supportedType (ImgInput.bytes none) &&
          supportedType (ImgInput.pilImage imgBlack1) then
        ExcClass.imageProcessError else ExcClass.ddddocrError) :=
  (C9_invalid_inputs_raise findContoursModel cvContourArea0
      (fun _ _ => (0, 0, 0)) (fun _ _ _ => 0) (ImgInput.bytes none)
      (ImgInput.pilImage imgBlack1) false).1
    (Or.inl fun _ h => Except.noConfusion h)

/-- C10 (confirmed): the dictionary returned by the slide comparison does not
always have the same shape.  On identical images no contour is found and the
result carries only the `target` key (the optional fields are absent); with a
contour present the result additionally carries `target_x` and `target_y`. -/
theorem C10_result_shape :
    perform_slide_comparison findContoursModel cvContourArea0 imgBlack1
        imgBlack1 =
      .ok { target := [0, 0], target_x := none, target_y := none } ∧
    perform_slide_comparison (fun _ => [[(0, 0)]]) cvContourArea0 imgWhite1
        imgBlack1 =
      .ok { target := [0, 0], target_x := some 0, target_y := some 0 } := by
  constructor
  · have hz : InZero (diffBinary imgBlack1 imgBlack1) :=
      diffBinary_inZero _ _ fun _ _ _ _ _ _ => rfl
    have hc : findContoursModel (diffBinary imgBlack1 imgBlack1) = [] :=
      (findContoursModel_nil_iff _).mpr ((inZero_iff_ball _).mp hz)
    rw [perform_slide_comparison, if_pos ⟨rfl, rfl, by decide, by decide⟩, hc]
    rfl
  · rw [perform_slide_comparison, if_pos ⟨rfl, rfl, by decide, by decide⟩]
    rfl

end DDDDOCR
